import Mathlib

/-!
# Verification of the zr-sharp interpreter against its specification

A shallow embedding of the zr-sharp tree-walking interpreter:

* `lexSource`      embeds `get_next_token` / the lexer of `lexer.c` (pull model
  realised as whole-input tokenisation; the two agree on every input whose
  consumed prefix lexes cleanly, which covers all inputs used below),
* `parseProgram`   embeds the recursive-descent parser of `parser.c`,
* `evalNode`       embeds `evaluate_node` and its helpers from the interpreter
  translation unit (the revision with the typed `RuntimeValue` model),
* `processSource`  embeds `process_source_code` / `check_and_register_module`
  of the module-loading main translation unit.

Modelling conventions:

* C `int64_t` / `int32_t` payloads are unbounded `Int` with explicit range
  checks exactly where the C code checks ranges (`strtoll` ERANGE,
  `INT32_MIN/MAX` narrowing).  Signed-overflow UB of C arithmetic is not
  modelled; no claim below exercises it.  The C code never resets `errno`
  before `strtoll`, so a stale `ERANGE` could in principle leak between
  literals; this is likewise not modelled and not exercised.
* C `double` payloads are modelled exactly as rationals (`Rat`).  The claims
  below only require distinguishing exact zero and conversions from integer
  values, which are exact in both models.  `%.2f` rendering is modelled
  approximately by `formatFloat2`; no claim depends on it.
* The legacy `TYPE_INT` runtime values are never constructed by this
  interpreter (literals evaluate to INT64/INT32/FLOAT), so `RV` has no
  constructor for them and the corresponding dead branches of
  `evaluate_binary_op` / `evaluate_let` / `print_runtime_value` have no
  counterpart here.
* `error(...)` calls `exit(1)`; wherever it is reachable the model returns
  `none` (a fatal outcome).  Parse failures that the C signals by returning
  `NULL` are the `.fail` outcome carrying the token position reached.
* Recursion that the C realises by loops/recursion over mutable state is
  fuel-indexed (`Nat` fuel, structurally decreasing) so that every definition
  reduces by `rfl`/`decide`; the drivers supply fuel that provably exceeds
  the recursion depth of the C code on the same input.  Fuel-0 results are
  artifacts that no theorem below depends on: claim theorems quantify over
  `fuel + 1` so that each nested call of the C maps to one fuel decrement.
-/

/-- Token kinds, from the `TokenType` enum of `compiler.h`.  `dot` is declared
in the enum but the lexer has no case producing it. -/
inductive TokenType where
  | eof | ident | number | strLit
  | plus | minus | star | slash
  | eq | eqeq | lt | gt | lteq | gteq | noteq
  | lparen | rparen | lbrace | rbrace | semicolon | comma | colon
  | tInt | tInt32 | tInt64 | tFloat | tBool | tString
  | kLet | kIf | kElse | kWhile | kPrint | kFunc | kReturn
  | kTrue | kFalse | kAnd | kOr | kNot | kLoadin | dot
  deriving DecidableEq, Repr

/-- A token: kind plus its text (the C stores `char* text`; `NULL` is modelled
as `""`).  Line/column fields only feed diagnostics and are omitted. -/
structure Token where
  ttype : TokenType
  text : String
  deriving DecidableEq, Repr

/-- `isspace` of the C locale (ASCII whitespace). -/
def isSpaceChar (c : Char) : Bool :=
  c = ' ' ∨ c = '\t' ∨ c = '\n' ∨ c = '\r' ∨ c = '\x0b' ∨ c = '\x0c'

/-- Characters admitted inside an identifier: `isalnum(c) || c == '_'`. -/
def isIdentChar (c : Char) : Bool :=
  c.isAlpha ∨ c.isDigit ∨ c = '_'

/-- The keyword table of `lexer.c` (note: it has no entry for `loadin`,
although `TOKEN_LOADIN` is declared in `compiler.h` as the token "for the
'loadin' keyword"). -/
def keywordType (s : String) : TokenType :=
  if s = "let" then .kLet
  else if s = "if" then .kIf
  else if s = "else" then .kElse
  else if s = "while" then .kWhile
  else if s = "print" then .kPrint
  else if s = "func" then .kFunc
  else if s = "return" then .kReturn
  else if s = "true" then .kTrue
  else if s = "false" then .kFalse
  else if s = "and" then .kAnd
  else if s = "or" then .kOr
  else if s = "not" then .kNot
  else if s = "int" then .tInt
  else if s = "int32" then .tInt32
  else if s = "int64" then .tInt64
  else if s = "float" then .tFloat
  else if s = "bool" then .tBool
  else if s = "string" then .tString
  else .ident

/-- Drop a `//` comment body: everything up to (excluding) the next newline. -/
def dropLineComment : List Char → List Char
  | [] => []
  | c :: cs => if c = '\n' then c :: cs else dropLineComment cs

/-- `skip_whitespace_and_comments`: loop skipping whitespace and `//` comments.
Each iteration of the C loop consumes at least one character, so fuel
`length + 1` (supplied by `nextToken`) always suffices. -/
def skipWS : Nat → List Char → List Char
  | 0, cs => cs
  | _, [] => []
  | fuel + 1, c :: cs =>
    if isSpaceChar c then skipWS fuel cs
    else if c = '/' then
      match cs with
      | d :: _ => if d = '/' then skipWS fuel (dropLineComment cs) else c :: cs
      | [] => c :: cs
    else c :: cs

/-- `read_number`'s scan: digits with at most one embedded `.`; returns the
token text and the rest of the input. -/
def numSpan : Bool → List Char → List Char × List Char
  | _, [] => ([], [])
  | hasDot, c :: cs =>
    if c.isDigit then
      let p := numSpan hasDot cs
      (c :: p.1, p.2)
    else if ¬ hasDot ∧ c = '.' then
      let p := numSpan true cs
      (c :: p.1, p.2)
    else ([], c :: cs)

/-- `read_string`'s scan after the opening quote: content up to the closing
quote, or `none` when a newline or end-of-input arrives first (the C then
returns an end-of-input token carrying a diagnostic). -/
def strScan : List Char → Option (List Char × List Char)
  | [] => none
  | c :: cs =>
    if c = '"' then some ([], cs)
    else if c = '\n' then none
    else match strScan cs with
      | none => none
      | some (content, rest) => some (c :: content, rest)

/-- `get_next_token`: one token plus the remaining input.  `none` models the
fatal `error(...)` exits on an invalid character or a lone `&`/`|`. -/
def nextToken (cs0 : List Char) : Option (Token × List Char) :=
  let cs := skipWS (cs0.length + 1) cs0
  match cs with
  | [] => some (⟨.eof, ""⟩, [])
  | c :: rest =>
    if isIdentChar c ∧ ¬ c.isDigit then
      let txt := (c :: rest).takeWhile isIdentChar
      some (⟨keywordType (String.mk txt), String.mk txt⟩,
            (c :: rest).dropWhile isIdentChar)
    else if c.isDigit then
      let p := numSpan false (c :: rest)
      some (⟨.number, String.mk p.1⟩, p.2)
    else if c = '"' then
      match strScan rest with
      | none => some (⟨.eof, "Unterminated string literal"⟩, [])
      | some (content, rest2) => some (⟨.strLit, String.mk content⟩, rest2)
    else if c = '+' then some (⟨.plus, "+"⟩, rest)
    else if c = '-' then some (⟨.minus, "-"⟩, rest)
    else if c = '*' then some (⟨.star, "*"⟩, rest)
    else if c = '/' then some (⟨.slash, "/"⟩, rest)
    else if c = '(' then some (⟨.lparen, "("⟩, rest)
    else if c = ')' then some (⟨.rparen, ")"⟩, rest)
    else if c = '\x7b' then some (⟨.lbrace, "\x7b"⟩, rest)
    else if c = '\x7d' then some (⟨.rbrace, "\x7d"⟩, rest)
    else if c = ';' then some (⟨.semicolon, ";"⟩, rest)
    else if c = ',' then some (⟨.comma, ","⟩, rest)
    else if c = ':' then some (⟨.colon, ":"⟩, rest)
    else if c = '=' then
      match rest with
      | '=' :: rest2 => some (⟨.eqeq, "=="⟩, rest2)
      | _ => some (⟨.eq, "="⟩, rest)
    else if c = '<' then
      match rest with
      | '=' :: rest2 => some (⟨.lteq, "<="⟩, rest2)
      | _ => some (⟨.lt, "<"⟩, rest)
    else if c = '>' then
      match rest with
      | '=' :: rest2 => some (⟨.gteq, ">="⟩, rest2)
      | _ => some (⟨.gt, ">"⟩, rest)
    else if c = '!' then
      match rest with
      | '=' :: rest2 => some (⟨.noteq, "!="⟩, rest2)
      | _ => some (⟨.kNot, "!"⟩, rest)
    else if c = '&' then
      match rest with
      | '&' :: rest2 => some (⟨.kAnd, "&&"⟩, rest2)
      | _ => none
    else if c = '|' then
      match rest with
      | '|' :: rest2 => some (⟨.kOr, "||"⟩, rest2)
      | _ => none
    else none

/-- Tokenise the whole input.  The end-of-input token is not retained: the
parser model treats an exhausted token list as `TOKEN_EOF` (the C lexer keeps
returning `TOKEN_EOF` once the input is spent).  An unterminated string
literal, which the C lexer surfaces as an end-of-input token, therefore
truncates the stream at that point, exactly as the parser observes it. -/
def lexAll : Nat → List Char → Option (List Token)
  | 0, _ => none
  | fuel + 1, cs =>
    match nextToken cs with
    | none => none
    | some (tok, rest) =>
      if tok.ttype = .eof then some []
      else match lexAll fuel rest with
        | none => none
        | some toks => some (tok :: toks)

/-- Lex a source string (every non-EOF token consumes at least one character,
so fuel `length + 1` suffices). -/
def lexSource (s : String) : Option (List Token) :=
  lexAll (s.length + 1) s.data

/-- Runtime/declared data types, from the `DataType` enum of `compiler.h`.
`dInt` is the legacy `TYPE_INT`; the parser and evaluator never produce
values of it. -/
inductive DataType where
  | dInt | dFloat | dBool | dString | dVoid | dInt32 | dInt64 | dError
  deriving DecidableEq, Repr

/-- AST nodes, from `struct ASTNode` of `compiler.h`, specialised to the
variants this parser actually constructs (`NODE_UNARY`, `NODE_WHILE`,
`NODE_FUNC`, `NODE_CALL`, `NODE_RETURN` are declared but never built).
`ifStmt` keeps `Option` children because `parse_if_statement` stores possibly
`NULL` condition/body/else pointers; `printStmt` likewise may carry a `NULL`
operand. -/
inductive ASTNode where
  /-- `NODE_NUMBER`: literal text plus the dot-inferred `data_type` tag. -/
  | number (text : String) (dt : DataType)
  /-- `NODE_STRING`. -/
  | str (s : String)
  /-- `NODE_BOOL`. -/
  | boolLit (b : Bool)
  /-- `NODE_IDENT`: name plus the (unused at evaluation) dot-inferred tag. -/
  | ident (name : String) (dt : DataType)
  /-- `NODE_BINARY`: operator token text and the two operands. -/
  | binary (op : String) (l r : ASTNode)
  /-- `NODE_LET`: variable name, `explicit_type` (`dVoid` = no annotation),
  initializer. -/
  | letStmt (name : String) (explicitType : DataType) (init : ASTNode)
  /-- `NODE_IF`. -/
  | ifStmt (cond body els : Option ASTNode)
  /-- `NODE_PRINT`. -/
  | printStmt (arg : Option ASTNode)
  /-- `NODE_BLOCK`. -/
  | block (stmts : List ASTNode)
  /-- `NODE_LOADIN`: module path string. -/
  | loadin (path : String)
  deriving Repr

/-- Runtime values (`RuntimeValue` = `DataType` tag + `Value` union).  Integer
payloads are unbounded `Int` (ranges are enforced exactly where the C checks
them); `float` payloads are exact rationals; `error` carries no payload
(`create_error_runtime_value` always stores payload 0). -/
inductive RV where
  | int32 (z : Int)
  | int64 (z : Int)
  | float (q : Rat)
  | bool (b : Bool)
  | str (s : String)
  | void
  | error
  deriving DecidableEq, Repr

/-- The `DataType` tag of a runtime value. -/
def rvType : RV → DataType
  | .int32 _ => .dInt32
  | .int64 _ => .dInt64
  | .float _ => .dFloat
  | .bool _ => .dBool
  | .str _ => .dString
  | .void => .dVoid
  | .error => .dError

/-- `MAX_SYMBOLS` of the interpreter translation unit. -/
def maxSymbols : Nat := 100

/-- The symbol table: name/value pairs in insertion order (the C array
`symbol_table[0..symbol_count)` scanned linearly). -/
abbrev SymTab := List (String × RV)

/-- `get_symbol`: first entry with the given name. -/
def lookupSym (n : String) : SymTab → Option RV
  | [] => none
  | (m, v) :: rest => if m = n then some v else lookupSym n rest

/-- Overwrite the first entry with the given name (the update branch of
`set_symbol`). -/
def replaceSym (n : String) (v : RV) : SymTab → SymTab
  | [] => []
  | (m, w) :: rest =>
    if m = n then (m, v) :: rest else (m, w) :: replaceSym n v rest

/-- `set_symbol`: overwrite an existing binding, else append when fewer than
`MAX_SYMBOLS` entries exist, else report "Symbol table overflow" on stderr
and leave the table unchanged (not fatal). -/
def setSymbol (n : String) (v : RV) (tab : SymTab) : SymTab :=
  if (lookupSym n tab).isSome then replaceSym n v tab
  else if tab.length < maxSymbols then tab ++ [(n, v)]
  else tab

/-- The numeric promotion at the top of `evaluate_binary_op`: INT32 operands
are widened to INT64 (the legacy-INT widening branch is dead, see above). -/
def promoteRV : RV → RV
  | .int32 z => .int64 z
  | v => v

/-- Numeric value of an operand as a rational, when numeric at all. -/
def numQ : RV → Option Rat
  | .int32 z => some (z : Rat)
  | .int64 z => some (z : Rat)
  | .float q => some q
  | _ => none

/-- Arithmetic/comparison/logical dispatch of `evaluate_binary_op`, applied
after both operands were evaluated and found non-Error.  `Int.tdiv` is C's
truncating integer division. -/
def applyBinOp (op : String) (l0 r0 : RV) : RV :=
  let l := promoteRV l0
  let r := promoteRV r0
  if op = "+" ∨ op = "-" ∨ op = "*" ∨ op = "/" then
    match l, r with
    | .int64 a, .int64 b =>
      if op = "+" then .int64 (a + b)
      else if op = "-" then .int64 (a - b)
      else if op = "*" then .int64 (a * b)
      else if b = 0 then .error
      else .int64 (Int.tdiv a b)
    | .float a, .float b =>
      if op = "+" then .float (a + b)
      else if op = "-" then .float (a - b)
      else if op = "*" then .float (a * b)
      else if b = 0 then .error
      else .float (a / b)
    | .float a, .int64 b =>
      if op = "+" then .float (a + (b : Rat))
      else if op = "-" then .float (a - (b : Rat))
      else if op = "*" then .float (a * (b : Rat))
      else if (b : Rat) = 0 then .error
      else .float (a / (b : Rat))
    | .int64 a, .float b =>
      if op = "+" then .float ((a : Rat) + b)
      else if op = "-" then .float ((a : Rat) - b)
      else if op = "*" then .float ((a : Rat) * b)
      else if b = 0 then .error
      else .float ((a : Rat) / b)
    | _, _ => .error
  else if op = ">" ∨ op = "<" ∨ op = "==" ∨ op = "<=" ∨ op = ">=" ∨ op = "!=" then
    match l, r with
    | .int64 a, .int64 b =>
      if op = ">" then .bool (decide (a > b))
      else if op = "<" then .bool (decide (a < b))
      else if op = "==" then .bool (decide (a = b))
      else if op = "<=" then .bool (decide (a ≤ b))
      else if op = ">=" then .bool (decide (a ≥ b))
      else .bool (decide (a ≠ b))
    | .float a, .float b =>
      if op = ">" then .bool (decide (a > b))
      else if op = "<" then .bool (decide (a < b))
      else if op = "==" then .bool (decide (a = b))
      else if op = "<=" then .bool (decide (a ≤ b))
      else if op = ">=" then .bool (decide (a ≥ b))
      else .bool (decide (a ≠ b))
    | .float a, .int64 b =>
      if op = ">" then .bool (decide (a > (b : Rat)))
      else if op = "<" then .bool (decide (a < (b : Rat)))
      else if op = "==" then .bool (decide (a = (b : Rat)))
      else if op = "<=" then .bool (decide (a ≤ (b : Rat)))
      else if op = ">=" then .bool (decide (a ≥ (b : Rat)))
      else .bool (decide (a ≠ (b : Rat)))
    | .int64 a, .float b =>
      if op = ">" then .bool (decide ((a : Rat) > b))
      else if op = "<" then .bool (decide ((a : Rat) < b))
      else if op = "==" then .bool (decide ((a : Rat) = b))
      else if op = "<=" then .bool (decide ((a : Rat) ≤ b))
      else if op = ">=" then .bool (decide ((a : Rat) ≥ b))
      else .bool (decide ((a : Rat) ≠ b))
    | .str s, .str t =>
      if op = "==" then .bool (decide (s = t))
      else if op = "!=" then .bool (decide (s ≠ t))
      else .error
    | _, _ => .error
  else if op = "&&" ∨ op = "||" then
    match l0, r0 with
    | .bool a, .bool b => if op = "&&" then .bool (a && b) else .bool (a || b)
    | _, _ => .error
  else .error

/-- Numeric value of a decimal digit (0 for non-digits; only applied to
digits below). -/
def digitVal (c : Char) : Nat := c.toNat - 48

/-- Decimal value of a digit run. -/
def digitsVal (cs : List Char) : Nat :=
  cs.foldl (fun acc c => acc * 10 + digitVal c) 0

/-- `strtoll`/`strtol` on a number-literal text together with the
`endptr`/empty checks of `evaluate_node`: the whole text must be a nonempty
digit run (literals are unsigned; the grammar has no unary minus).  Returns
`none` when the text is not a pure integer numeral. -/
def parseIntStr (s : String) : Option Nat :=
  if s.data ≠ [] ∧ s.data.all Char.isDigit then some (digitsVal s.data) else none

/-- `atof` on a lexer-produced float literal (`digits.digits`), exactly. -/
def ratOfStr (s : String) : Rat :=
  let ip := s.data.takeWhile (fun c => c ≠ '.')
  let rest := s.data.dropWhile (fun c => c ≠ '.')
  let fp := rest.drop 1
  (digitsVal ip : Rat) + (digitsVal fp : Rat) / ((10 : Rat) ^ fp.length)

/-- `INT32_MAX` / `INT32_MIN` / `INT64_MAX` bounds. -/
def int32Max : Int := 2 ^ 31 - 1
def int32Min : Int := -(2 ^ 31)
def int64Max : Int := 2 ^ 63 - 1

/-- `NODE_NUMBER` evaluation: dispatch on the node's `data_type` tag.
INT64 (and legacy INT) via `strtoll` with an ERANGE check; FLOAT via `atof`;
INT32 via `strtol` with an explicit INT32 range check; other tags are the
"Unknown data type" error. -/
def evalNumber (text : String) (dt : DataType) : RV :=
  match dt with
  | .dInt64 | .dInt =>
    match parseIntStr text with
    | none => .error
    | some n => if (n : Int) > int64Max then .error else .int64 (n : Int)
  | .dFloat => .float (ratOfStr text)
  | .dInt32 =>
    match parseIntStr text with
    | none => .error
    | some n => if (n : Int) > int32Max then .error else .int32 (n : Int)
  | _ => .error

/-- How a `let` with an explicit declared type can fail. -/
inductive LetErr where
  | overflow
  | typeMismatch
  deriving DecidableEq, Repr

/-- The declared-type conversion ladder of `evaluate_let`: no annotation
(`dVoid`) or matching types pass the value through; otherwise only
Int32→Int64, Int64→Int32 (with INT32 range check, overflow otherwise) and
integer→Float succeed; everything else is the `type_error` path.  The
legacy-INT source branches are dead (no legacy values exist). -/
def convertLet (declared : DataType) (v : RV) : Except LetErr RV :=
  if declared = .dVoid then .ok v
  else if rvType v = declared then .ok v
  else match declared, v with
    | .dFloat, .int64 z => .ok (.float (z : Rat))
    | .dFloat, .int32 z => .ok (.float (z : Rat))
    | .dInt64, .int32 z => .ok (.int64 z)
    | .dInt32, .int64 z =>
      if int32Min ≤ z ∧ z ≤ int32Max then .ok (.int32 z)
      else .error .overflow
    | _, _ => .error .typeMismatch

/-- Two's-decimal rendering of a rational, approximating `printf("%.2f", ·)`
(round-half-up on the exact rational rather than IEEE round-half-even on a
double; no claim depends on this function). -/
def formatFloat2 (q : Rat) : String :=
  let n : Int := ⌊q * 100 + 1 / 2⌋
  let m : Nat := n.natAbs
  let sign : String := if n < 0 then "-" else ""
  let fracPart : Nat := m % 100
  let fracStr : String := if fracPart < 10 then "0" ++ toString fracPart else toString fracPart
  sign ++ toString (m / 100) ++ "." ++ fracStr

/-- `print_runtime_value` on stdout.  The `error` case writes to stderr in
the C (never reached from `NODE_PRINT`, which propagates Error before
printing); it is rendered here as `""`. -/
def formatRV : RV → String
  | .float q => formatFloat2 q
  | .str s => s
  | .bool b => if b then "true" else "false"
  | .int32 z => toString z
  | .int64 z => toString z
  | .void => "(void)"
  | .error => ""

/-- Result of evaluating a node: the value, the symbol table afterwards, and
the lines printed to stdout. -/
structure EvalRes where
  val : RV
  tab : SymTab
  out : List String
  deriving DecidableEq, Repr

/-- The statement loops of `evaluate_if` (initial accumulator
`create_error_runtime_value()`) and of the `NODE_BLOCK` case (whose
empty-block flag amounts to the initial accumulator `TYPE_VOID`): evaluate
statements in order, return immediately on the first Error-valued statement,
otherwise return the last statement's value (the initial value when the list
is empty). -/
def runStmtsFrom (ev : ASTNode → SymTab → EvalRes) :
    List ASTNode → SymTab → RV → List String → EvalRes
  | [], tab, last, acc => ⟨last, tab, acc⟩
  | s :: rest, tab, _, acc =>
    let R := ev s tab
    match R.val with
    | .error => ⟨.error, R.tab, acc ++ R.out⟩
    | _ => runStmtsFrom ev rest R.tab R.val (acc ++ R.out)

/-- Evaluation of one branch pointer of an `if`: a `NULL` branch falls
through to `evaluate_if`'s final `return create_error_runtime_value()`, a
`NODE_BLOCK` branch runs the statement loop with Error as initial
accumulator, any other node is evaluated directly. -/
def evalIfBranch (ev : ASTNode → SymTab → EvalRes) :
    Option ASTNode → SymTab → List String → EvalRes
  | none, tab, acc => ⟨.error, tab, acc⟩
  | some (.block ss), tab, acc => runStmtsFrom ev ss tab .error acc
  | some other, tab, acc =>
    let R := ev other tab
    ⟨R.val, R.tab, acc ++ R.out⟩

/-- `evaluate_node` on a possibly-`NULL` child pointer
(`evaluate_node(NULL)` returns the Error value). -/
def evalOpt (ev : ASTNode → SymTab → EvalRes) :
    Option ASTNode → SymTab → EvalRes
  | none, tab => ⟨.error, tab, []⟩
  | some n, tab => ev n tab

/-- `evaluate_node`, fuel-indexed: each nested `evaluate_node` call of the C
costs one unit of fuel (statement loops inside one call cost none, as in the
C).  Fuel 0 is an unreachable artifact (the drivers pass fuel exceeding the
AST depth). -/
def evalNode : Nat → ASTNode → SymTab → EvalRes
  | 0, _, tab => ⟨.error, tab, []⟩
  | fuel + 1, node, tab =>
    match node with
    | .number text dt => ⟨evalNumber text dt, tab, []⟩
    | .str s => ⟨.str s, tab, []⟩
    | .boolLit b => ⟨.bool b, tab, []⟩
    | .ident n _ =>
      match lookupSym n tab with
      | none => ⟨.error, tab, []⟩
      | some v => ⟨v, tab, []⟩
    | .binary op l r =>
      let L := evalNode fuel l tab
      let R := evalNode fuel r L.tab
      match L.val with
      | .error => ⟨.error, R.tab, L.out ++ R.out⟩
      | _ =>
        match R.val with
        | .error => ⟨.error, R.tab, L.out ++ R.out⟩
        | _ => ⟨applyBinOp op L.val R.val, R.tab, L.out ++ R.out⟩
    | .letStmt n dt init =>
      let E := evalNode fuel init tab
      match E.val with
      | .error => E
      | _ =>
        match convertLet dt E.val with
        | .ok v => ⟨v, setSymbol n v E.tab, E.out⟩
        | .error _ => ⟨.error, E.tab, E.out⟩
    | .ifStmt cond body els =>
      let C := evalOpt (evalNode fuel) cond tab
      match C.val with
      | .error => C
      | .bool bv =>
        if bv then evalIfBranch (evalNode fuel) body C.tab C.out
        else evalIfBranch (evalNode fuel) els C.tab C.out
      | _ => ⟨.error, C.tab, C.out⟩
    | .printStmt arg =>
      match arg with
      | none => ⟨.error, tab, []⟩
      | some e =>
        let R := evalNode fuel e tab
        match R.val with
        | .error => R
        | _ => ⟨.void, R.tab, R.out ++ [formatRV R.val]⟩
    | .block ss => runStmtsFrom (evalNode fuel) ss tab .void []
    | .loadin _ => ⟨.error, tab, []⟩

/-- Outcome of a parsing function: a node plus remaining tokens, a `NULL`
return (`fail`, carrying the token position the parser state was left at),
or a process-terminating `error(...)` call (`fatal`, only reachable from
`parse_loadin_statement`). -/
inductive PRes where
  | ok (node : ASTNode) (rest : List Token)
  | fail (rest : List Token)
  | fatal
  deriving Repr

/-- `parser->current_token.type`: an exhausted stream reads as `TOKEN_EOF`
(the C lexer keeps yielding `TOKEN_EOF` at end of input). -/
def tokHead : List Token → TokenType
  | [] => .eof
  | t :: _ => t.ttype

/-- `parser->current_token.text` (`""` for the synthetic EOF). -/
def tokText : List Token → String
  | [] => ""
  | t :: _ => t.text

/-- The dot-inspection of `parse_identifier` / `parse_number`: tag the node
FLOAT when the token text contains a `.`, else INT64. -/
def dotTag (s : String) : DataType :=
  if s.data.contains '.' then .dFloat else .dInt64

/-- The token kinds accepted by the binary-operator loop of
`parse_expression` (note that plain `=` — `TOKEN_EQ` — is in the list). -/
def isBinOpTok (t : TokenType) : Bool :=
  match t with
  | .plus | .minus | .star | .slash | .gt | .lt | .eq
  | .eqeq | .lteq | .gteq | .noteq | .kAnd | .kOr => true
  | _ => false

/-- `MAX_STATEMENTS` of `compiler.h`. -/
def maxStatements : Nat := 1000

mutual

/-- `parse_expression`: a primary (identifier, number, string, boolean,
parenthesised expression), then the binary-operator loop. -/
def parseExpression : Nat → List Token → PRes
  | 0, ts => .fail ts
  | fuel + 1, ts =>
    match tokHead ts with
    | .ident =>
      parseBinOps fuel (.ident (tokText ts) (dotTag (tokText ts))) ts.tail
    | .number =>
      parseBinOps fuel (.number (tokText ts) (dotTag (tokText ts))) ts.tail
    | .strLit => parseBinOps fuel (.str (tokText ts)) ts.tail
    | .kTrue => parseBinOps fuel (.boolLit true) ts.tail
    | .kFalse => parseBinOps fuel (.boolLit false) ts.tail
    | .lparen =>
      match parseExpression fuel ts.tail with
      | .fatal => .fatal
      | .fail rest => .fail rest
      | .ok inner rest =>
        if tokHead rest = .rparen then parseBinOps fuel inner rest.tail
        else .fail rest
    | _ => .fail ts

/-- The `while` loop over binary-operator tokens in `parse_expression`: each
iteration captures the operator text, recurses into `parse_expression` for
the right operand (failure of which fails the whole expression at the
position reached), and folds the result into a `NODE_BINARY`. -/
def parseBinOps : Nat → ASTNode → List Token → PRes
  | 0, _, ts => .fail ts
  | fuel + 1, left, ts =>
    if isBinOpTok (tokHead ts) then
      match parseExpression fuel ts.tail with
      | .fatal => .fatal
      | .fail rest => .fail rest
      | .ok right rest => parseBinOps fuel (.binary (tokText ts) left right) rest
    else .ok left ts

end

/-- `parse_let_statement`: `let` IDENT (`:` typename)? `=` expression.  The
typename mapping sends `int` to INT64. -/
def parseLetStmt (fuel : Nat) (ts : List Token) : PRes :=
  match fuel with
  | 0 => .fail ts
  | fuel + 1 =>
    let ts1 := ts.tail
    if tokHead ts1 ≠ .ident then .fail ts1
    else
      let name := tokText ts1
      let ts2 := ts1.tail
      let tyRes : Option (DataType × List Token) :=
        if tokHead ts2 = .colon then
          match tokHead ts2.tail with
          | .tInt => some (.dInt64, ts2.tail.tail)
          | .tInt32 => some (.dInt32, ts2.tail.tail)
          | .tInt64 => some (.dInt64, ts2.tail.tail)
          | .tFloat => some (.dFloat, ts2.tail.tail)
          | .tBool => some (.dBool, ts2.tail.tail)
          | .tString => some (.dString, ts2.tail.tail)
          | _ => none
        else some (.dVoid, ts2)
      match tyRes with
      | none => .fail ts2.tail
      | some (declared, ts3) =>
        if tokHead ts3 ≠ .eq then .fail ts3
        else
          match parseExpression fuel ts3.tail with
          | .fatal => .fatal
          | .fail rest => .fail rest
          | .ok e rest => .ok (.letStmt name declared e) rest

/-- `parse_print_statement`: the `NODE_PRINT` node is created before the
operand is parsed and is returned even when the operand fails to parse (the
node then carries a `NULL` operand). -/
def parsePrintStmt (fuel : Nat) (ts : List Token) : PRes :=
  match fuel with
  | 0 => .fail ts
  | fuel + 1 =>
    match parseExpression fuel ts.tail with
    | .fatal => .fatal
    | .fail rest => .ok (.printStmt none) rest
    | .ok e rest => .ok (.printStmt (some e)) rest

/-- `parse_loadin_statement`: `loadin` STRING.  A missing string literal
calls `error(...)`, which terminates the process (`fatal`), unlike the other
statement parsers. -/
def parseLoadinStmt (ts : List Token) : PRes :=
  let ts1 := ts.tail
  if tokHead ts1 ≠ .strLit then .fatal
  else .ok (.loadin (tokText ts1)) ts1.tail

mutual

/-- `parse_statement`: dispatch on the current token (an unrecognised
statement head is tried as an expression statement); afterwards one trailing
semicolon is consumed if present — also on the failure path, since the C
performs this check after the switch regardless. -/
def parseStatement : Nat → List Token → PRes
  | 0, ts => .fail ts
  | fuel + 1, ts =>
    let core : PRes :=
      match tokHead ts with
      | .kLet => parseLetStmt fuel ts
      | .kIf => parseIfStmt fuel ts
      | .kPrint => parsePrintStmt fuel ts
      | .kLoadin => parseLoadinStmt ts
      | _ => parseExpression fuel ts
    match core with
    | .fatal => .fatal
    | .ok s rest =>
      .ok s (if tokHead rest = .semicolon then rest.tail else rest)
    | .fail rest =>
      .fail (if tokHead rest = .semicolon then rest.tail else rest)

/-- `parse_if_statement`: `if` `(` expression `)` block (`else` block)?.
A failed condition or block parse leaves a `NULL` pointer in the node rather
than failing the statement; only missing parentheses fail it. -/
def parseIfStmt : Nat → List Token → PRes
  | 0, ts => .fail ts
  | fuel + 1, ts =>
    let ts1 := ts.tail
    if tokHead ts1 ≠ .lparen then .fail ts1
    else
      match
        (match parseExpression fuel ts1.tail with
         | .fatal => none
         | .fail rest => some ((none : Option ASTNode), rest)
         | .ok c rest => some (some c, rest)) with
      | none => .fatal
      | some (cond, ts2) =>
        if tokHead ts2 ≠ .rparen then .fail ts2
        else
          match
            (match parseBlock fuel ts2.tail with
             | .fatal => none
             | .fail rest => some ((none : Option ASTNode), rest)
             | .ok b rest => some (some b, rest)) with
          | none => .fatal
          | some (body, ts3) =>
            if tokHead ts3 = .kElse then
              match
                (match parseBlock fuel ts3.tail with
                 | .fatal => none
                 | .fail rest => some ((none : Option ASTNode), rest)
                 | .ok b rest => some (some b, rest)) with
              | none => .fatal
              | some (els, ts4) => .ok (.ifStmt cond body els) ts4
            else .ok (.ifStmt cond body none) ts3

/-- `parse_block`: `{` statement* `}`; consumes the `{`, then loops. -/
def parseBlock : Nat → List Token → PRes
  | 0, ts => .fail ts
  | fuel + 1, ts => parseBlockLoop fuel ts.tail []

/-- The statement loop of `parse_block`: stops at `}` or EOF, on a failed
statement (silently), or on exceeding `MAX_STATEMENTS` (discarding the
statement that no longer fits); afterwards a missing `}` fails the block. -/
def parseBlockLoop : Nat → List Token → List ASTNode → PRes
  | 0, ts, _ => .fail ts
  | fuel + 1, ts, acc =>
    if tokHead ts = .rbrace ∨ tokHead ts = .eof then
      if tokHead ts = .rbrace then .ok (.block acc.reverse) ts.tail else .fail ts
    else
      match parseStatement fuel ts with
      | .fatal => .fatal
      | .fail rest =>
        if tokHead rest = .rbrace then .ok (.block acc.reverse) rest.tail
        else .fail rest
      | .ok s rest =>
        if acc.length < maxStatements then parseBlockLoop fuel rest (s :: acc)
        else
          if tokHead rest = .rbrace then .ok (.block acc.reverse) rest.tail
          else .fail rest

end

/-- The statement loop of `parse_program`: loops until `TOKEN_EOF`; on a
failed statement it stops ("For now, stop if a statement parsing fails.")
and — like on the `MAX_STATEMENTS` overflow break — still returns the
partially-filled program block.  Only a `fatal` (process-exit) outcome
escapes.  `parse_program` itself can never return `NULL`. -/
def parseProgramLoop : Nat → List Token → List ASTNode → Option ASTNode
  | 0, _, acc => some (.block acc.reverse)
  | fuel + 1, ts, acc =>
    if tokHead ts = .eof then some (.block acc.reverse)
    else
      match parseStatement fuel ts with
      | .fatal => none
      | .fail _ => some (.block acc.reverse)
      | .ok s rest =>
        if acc.length < maxStatements then parseProgramLoop fuel rest (s :: acc)
        else some (.block acc.reverse)

/-- Fuel that strictly dominates the recursion depth of the parser on the
given token list (every nested parser call of the C consumes at least one
token or ends the recursion; four units per token is generous). -/
def parserFuel (ts : List Token) : Nat := 4 * ts.length + 16

/-- `parse_program`: the program is a top-level `NODE_BLOCK`. -/
def parseProgram (ts : List Token) : Option ASTNode :=
  parseProgramLoop (parserFuel ts) ts []

/-- `MAX_LOADED_MODULES` of `compiler.h`. -/
def maxLoadedModules : Nat := 128

/-- The external source provider (spec §6): `resolve` maps a requested
`loadin` path to its canonical identifier (the C's `resolve_module_path`
over the file system, treated as an external collaborator), `fetch` maps a
canonical identifier to the module's source text (the C's
`fopen`/`fread`). -/
structure Provider where
  resolve : String → Option String
  fetch : String → Option String

/-- The process-wide interpreter state threaded through
`process_source_code`: the global symbol table, the module registry
(`loaded_modules_registry`), and the stdout lines so far. -/
structure PState where
  tab : SymTab
  reg : List String
  out : List String
  deriving DecidableEq, Repr

/-- `check_and_register_module`: a canonical path already present in the
registry is the fatal "already loaded or circular dependency" error
(`none`); exceeding `MAX_LOADED_MODULES` is likewise fatal; otherwise the
path is appended to the registry. -/
def checkAndRegister (reg : List String) (canonical : String) :
    Option (List String) :=
  if canonical ∈ reg then none
  else if maxLoadedModules ≤ reg.length then none
  else some (reg ++ [canonical])

/-- The statement walk of `process_source_code`: `NODE_LOADIN` statements
are resolved, registered, and their fetched content processed recursively
(each failure is an `error(...)` exit, `none`), in stream order; every other
statement is moved into the synthetic block `current_file_code_block`
(`acc`, in reverse).  When the walk ends, the collected block is interpreted
(`interpret` evaluates it and discards the resulting value — a runtime Error
value does not abort processing).  The C skips the `interpret` call when no
statements were collected; evaluating the empty block instead is
observationally identical (Void result, no output, table untouched).  `recur` is `process_source_code` at the
next recursion depth; `efuel` is evaluation fuel dominating the depth of any
AST parsed from the current file (supplied by `processSource` as the token
count plus a margin: every AST node construction consumes at least one
token, so the depth of the parsed program — and of the synthetic block of
relocated statements — is below it). -/
def processLoopAux (prov : Provider) (efuel : Nat)
    (recur : String → PState → Option PState) :
    List ASTNode → PState → List ASTNode → Option PState
  | [], st, acc =>
    let prog := ASTNode.block acc.reverse
    let R := evalNode efuel prog st.tab
    some ⟨R.tab, st.reg, st.out ++ R.out⟩
  | s :: rest, st, acc =>
    match s with
    | .loadin p =>
      match prov.resolve p with
      | none => none
      | some canonical =>
        match checkAndRegister st.reg canonical with
        | none => none
        | some reg2 =>
          match prov.fetch canonical with
          | none => none
          | some moduleSrc =>
            match recur moduleSrc ⟨st.tab, reg2, st.out⟩ with
            | none => none
            | some st2 => processLoopAux prov efuel recur rest st2 acc
    | _ => processLoopAux prov efuel recur rest st (s :: acc)

/-- `process_source_code`: lex and parse the source (a lexer `error(...)` or
a fatal parse outcome terminates the run), check the top-level node is a
block (`parse_program` guarantees it), then run the statement walk.  Fuel
bounds the module-inclusion recursion depth only. -/
def processSource (prov : Provider) : Nat → String → PState → Option PState
  | 0, _, _ => none
  | fuel + 1, src, st =>
    match lexSource src with
    | none => none
    | some toks =>
      match parseProgram toks with
      | none => none
      | some prog =>
        match prog with
        | .block ss =>
          processLoopAux prov (toks.length + 4) (processSource prov fuel) ss st []
        | _ => none

/-- A provider with no resolvable modules (usable for programs whose
processing never reaches a `NODE_LOADIN`). -/
def emptyProvider : Provider := ⟨fun _ => none, fun _ => none⟩

/-- The all-empty initial process state. -/
def initPState : PState := ⟨[], [], []⟩

/-- Overwriting an existing binding leaves it retrievable at its slot:
`get_symbol` after the update branch of `set_symbol` sees the new value. -/
theorem lookupSym_replaceSym (n : String) (v : RV) :
    ∀ tab : SymTab, (lookupSym n tab).isSome →
      lookupSym n (replaceSym n v tab) = some v := by
  intro tab
  induction tab with
  | nil => intro h; simp [lookupSym] at h
  | cons hd tl ih =>
    intro h
    obtain ⟨m, w⟩ := hd
    by_cases hm : m = n
    · subst hm
      simp [replaceSym, lookupSym]
    · simp [replaceSym, lookupSym, hm] at h ⊢
      exact ih h

/-- Concrete sources used by the claim theorems (braces written with
hexadecimal escapes). -/
def srcC1 : String := "print 1; \x7b"

def srcC2 : String := "if (true) \x7b\x7d; print 1;"

def srcC3 : String := "let x = 10; \x7b let x = 20; print x; \x7d; print x;"

def srcC3if : String :=
  "let x = 10; if (true) \x7b let x = 20; print x; \x7d; print x;"

/-- Claim C1, counterexample.  The claim says a failed statement parse makes
the parser return an absent program up the call chain and that no
partially-parsed statement list is ever evaluated.  On the source
`print 1; {` the statement parse at `{` does fail, yet `parse_program`
returns a (non-absent) one-statement program, and `process_source_code`
evaluates it, printing `1`. -/
theorem c1_counterexample :
    parseStatement 31 [⟨.lbrace, "\x7b"⟩] = .fail [⟨.lbrace, "\x7b"⟩] ∧
    (lexSource srcC1).bind parseProgram =
      some (.block [.printStmt (some (.number "1" .dInt64))]) ∧
    processSource emptyProvider 2 srcC1 initPState =
      some ⟨[], [], ["1"]⟩ ∧
    (["1"] : List String) ≠ [] := by
  refine ⟨rfl, rfl, rfl, by decide⟩

/-- Claim C1, amended.  The statement parsers do signal failure by a `NULL`
return, but `parse_program` swallows it: on the first failed statement it
stops and returns the partially-parsed (non-absent) program block, and
`process_source_code` proceeds to evaluate exactly that partial statement
list (its absent-program check is unreachable for non-fatal failures). -/
theorem c1_amended :
    (∀ (fuel : Nat) (ts : List Token) (acc : List ASTNode) (r : List Token),
       tokHead ts ≠ .eof → parseStatement fuel ts = .fail r →
       parseProgramLoop (fuel + 1) ts acc = some (.block acc.reverse)) ∧
    (∀ (prov : Provider) (fuel : Nat) (src : String) (st : PState)
       (toks : List Token) (ss : List ASTNode),
       lexSource src = some toks →
       parseProgram toks = some (.block ss) →
       processSource prov (fuel + 1) src st =
         processLoopAux prov (toks.length + 4) (processSource prov fuel) ss st []) := by
  constructor
  · intro fuel ts acc r hne hfail
    simp [parseProgramLoop, hne, hfail]
  · intro prov fuel src st toks ss hlex hparse
    simp [processSource, hlex, hparse]

/-- Claim C1, witness for the amended theorem at concrete inputs. -/
theorem c1_amended_witness :
    parseProgramLoop 32 [⟨.lbrace, "\x7b"⟩] [] = some (.block []) ∧
    processSource emptyProvider 2 srcC1 initPState =
      processLoopAux emptyProvider
        ((([⟨.kPrint, "print"⟩, ⟨.number, "1"⟩, ⟨.semicolon, ";"⟩,
            ⟨.lbrace, "\x7b"⟩] : List Token)).length + 4)
        (processSource emptyProvider 1)
        [.printStmt (some (.number "1" .dInt64))] initPState [] := by
  constructor
  · exact c1_amended.1 31 [⟨.lbrace, "\x7b"⟩] [] [⟨.lbrace, "\x7b"⟩]
      (by decide) rfl
  · exact c1_amended.2 emptyProvider 1 srcC1 initPState
      [⟨.kPrint, "print"⟩, ⟨.number, "1"⟩, ⟨.semicolon, ";"⟩, ⟨.lbrace, "\x7b"⟩]
      [.printStmt (some (.number "1" .dInt64))] rfl rfl

/-- Claim C2, counterexample.  The claim says an If whose chosen branch is
absent or empty yields a Void-equivalent sentinel.  In fact `evaluate_if`
yields the Error value there: `if (true) {}` evaluates to Error, Error is
not Void, and — because Error aborts the enclosing statement list — the
program `if (true) {}; print 1;` prints nothing. -/
theorem c2_counterexample :
    evalNode 3 (.ifStmt (some (.boolLit true)) (some (.block [])) none) [] =
      ⟨.error, [], []⟩ ∧
    RV.error ≠ RV.void ∧
    processSource emptyProvider 2 srcC2 initPState = some ⟨[], [], []⟩ ∧
    (([] : List String) ≠ ["1"]) := by
  refine ⟨rfl, by decide, rfl, by decide⟩

/-- Claim C2, amended.  For every If node: the condition is evaluated first
and an Error condition propagates; a non-Bool condition is a fatal type
error; a chosen block branch runs its statements sequentially, returning
immediately on the first Error-valued statement, and yields the last
statement's value; but an absent or empty chosen branch (including a false
condition with no else) yields the *Error* sentinel — not a Void-equivalent
value — which then aborts any enclosing statement list. -/
theorem c2_amended :
    (∀ (f : Nat) (c b e : Option ASTNode) (tab : SymTab),
       evalNode (f + 1) (.ifStmt c b e) tab =
         (let C := evalOpt (evalNode f) c tab
          match C.val with
          | .error => C
          | .bool bv =>
            if bv then evalIfBranch (evalNode f) b C.tab C.out
            else evalIfBranch (evalNode f) e C.tab C.out
          | _ => ⟨.error, C.tab, C.out⟩)) ∧
    (∀ (ev : ASTNode → SymTab → EvalRes) (tab : SymTab) (acc : List String),
       evalIfBranch ev none tab acc = ⟨.error, tab, acc⟩) ∧
    (∀ (ev : ASTNode → SymTab → EvalRes) (ss : List ASTNode) (tab : SymTab)
       (acc : List String),
       evalIfBranch ev (some (.block ss)) tab acc =
         runStmtsFrom ev ss tab .error acc) ∧
    (∀ (ev : ASTNode → SymTab → EvalRes) (tab : SymTab) (last : RV)
       (acc : List String),
       runStmtsFrom ev [] tab last acc = ⟨last, tab, acc⟩) ∧
    (∀ (ev : ASTNode → SymTab → EvalRes) (s : ASTNode) (rest : List ASTNode)
       (tab : SymTab) (last : RV) (acc : List String),
       runStmtsFrom ev (s :: rest) tab last acc =
         (let R := ev s tab
          match R.val with
          | .error => ⟨.error, R.tab, acc ++ R.out⟩
          | _ => runStmtsFrom ev rest R.tab R.val (acc ++ R.out))) :=
  ⟨fun _ _ _ _ _ => rfl, fun _ _ _ => rfl, fun _ _ _ _ => rfl,
   fun _ _ _ _ => rfl, fun _ _ _ _ _ _ => rfl⟩

/-- Claim C3, counterexample.  The claim says
`let x = 10; { let x = 20; print x; }; print x;` prints `20` twice.  A bare
`{ ... }` block is not a parseable statement (`parse_statement` has no
`TOKEN_LBRACE` case), so parsing stops at `{`; only `let x = 10` is
evaluated and nothing at all is printed. -/
theorem c3_counterexample :
    processSource emptyProvider 2 srcC3 initPState =
      some ⟨[("x", .int64 10)], [], []⟩ ∧
    (([] : List String) ≠ ["20", "20"]) := by
  refine ⟨rfl, by decide⟩

/-- Claim C3, amended.  A second `let` of an already-bound name overwrites the
single global binding (`set_symbol` has no notion of scope), and this holds
at any nesting the grammar can actually express — block bodies of `if`/
`else`: `let x = 10; if (true) { let x = 20; print x; }; print x;` prints
`20` then `20`.  The claim's own example, using a bare `{ ... }` block, is
not parseable: parsing stops at `{` and only `let x = 10` runs. -/
theorem c3_amended :
    (∀ (n : String) (v : RV) (tab : SymTab),
       (lookupSym n tab).isSome →
       lookupSym n (setSymbol n v tab) = some v) ∧
    processSource emptyProvider 2 srcC3if initPState =
      some ⟨[("x", .int64 20)], [], ["20", "20"]⟩ := by
  constructor
  · intro n v tab h
    rw [setSymbol, if_pos h]
    exact lookupSym_replaceSym n v tab h
  · rfl

/-- Claim C3, witness for the amended theorem: overwriting a live binding at a
concrete table. -/
theorem c3_amended_witness :
    lookupSym "x" (setSymbol "x" (.int64 20) [("x", .int64 10)]) =
      some (.int64 20) :=
  c3_amended.1 "x" (.int64 20) [("x", .int64 10)] (by decide)

/-- Claim C4.  For every BinaryOp node — including `&&`/`||` — the left
operand is evaluated first, then the right operand unconditionally (its
state and output always enter the result; no short-circuiting), and an
Error from either operand is returned immediately as the operation's value.
The second conjunct exhibits the absence of short-circuiting concretely:
`false && (1/0 == 1)`-style evaluation still evaluates the right operand
and yields its Error instead of `false`. -/
theorem c4_binary_order_no_short_circuit :
    (∀ (f : Nat) (op : String) (l r : ASTNode) (tab : SymTab),
       evalNode (f + 1) (.binary op l r) tab =
         (let L := evalNode f l tab
          let R := evalNode f r L.tab
          match L.val with
          | .error => ⟨.error, R.tab, L.out ++ R.out⟩
          | _ =>
            match R.val with
            | .error => ⟨.error, R.tab, L.out ++ R.out⟩
            | _ => ⟨applyBinOp op L.val R.val, R.tab, L.out ++ R.out⟩)) ∧
    (∀ (f : Nat) (tab : SymTab),
       evalNode (f + 3) (.binary "&&" (.boolLit false)
         (.binary "/" (.number "1" .dInt64) (.number "0" .dInt64))) tab =
         ⟨.error, tab, []⟩) :=
  ⟨fun _ _ _ _ _ => rfl, fun _ _ => rfl⟩

/-- Claim C5.  Division by an operand whose numeric value is exactly zero —
integer zero (Int32 or Int64) or float 0.0 — always takes the
division-by-zero `error` branch of `evaluate_binary_op`: the result is the
fatal Error value, never a quotient, a silent zero, or (in the exact
rational model of float) NaN/infinity; totality of `applyBinOp` is the
model's form of "never a crash".  End to end, `print 1 / 0;` propagates the
Error and prints nothing, and a whole division node over Float operands
with zero divisor evaluates to Error likewise. -/
theorem c5_division_by_zero_fatal :
    (∀ (l r : RV) (ql qr : Rat), numQ l = some ql → numQ r = some qr →
       qr = 0 → applyBinOp "/" l r = .error) ∧
    processSource emptyProvider 2 "print 1 / 0;" initPState =
      some initPState ∧
    evalNode 3 (.binary "/" (.ident "a" .dInt64) (.ident "b" .dInt64))
        [("a", .float 1), ("b", .float 0)] =
      ⟨.error, [("a", .float 1), ("b", .float 0)], []⟩ := by
  refine ⟨?_, rfl, rfl⟩
  intro l r ql qr hl hr hz
  subst hz
  cases l <;> cases r <;> simp [numQ] at hl hr <;>
    simp [applyBinOp, promoteRV] <;>
    simp_all [Rat.intCast_eq_zero]

/-- Claim C5, witness: `7 / 0` (Int64) and `1.0 / 0.0` (Float) are both the
Error value. -/
theorem c5_witness :
    applyBinOp "/" (.int64 7) (.int64 0) = .error ∧
    applyBinOp "/" (.float 1) (.float 0) = .error :=
  ⟨c5_division_by_zero_fatal.1 (.int64 7) (.int64 0) ((7 : Int) : Rat)
     ((0 : Int) : Rat) rfl rfl (by norm_num),
   c5_division_by_zero_fatal.1 (.float 1) (.float 0) 1 0 rfl rfl rfl⟩

/-- Concrete source for the C6 overflow example. -/
def srcC6 : String := "let x: int32 = 3000000000;"

/-- Claim C6.  A `let` with declared type int32 narrows an Int64 initializer
inside `[INT32_MIN, INT32_MAX]` (storing and yielding the Int32 value) and
is a fatal overflow error outside that range — in particular
`let x: int32 = 3000000000;` evaluates to Error, stores nothing and prints
nothing.  Moreover the supported declared-vs-actual conversions of
`evaluate_let` are exactly Int32→Int64, Int64→Int32 with range check, and
integer→Float; every other mismatched combination is a fatal type error. -/
theorem c6_int32_narrowing_and_conversions :
    (∀ z : Int, int32Min ≤ z → z ≤ int32Max →
       convertLet .dInt32 (.int64 z) = .ok (.int32 z)) ∧
    (∀ z : Int, z < int32Min ∨ int32Max < z →
       convertLet .dInt32 (.int64 z) = .error .overflow) ∧
    (∀ (f : Nat) (n : String) (e : ASTNode) (tab : SymTab) (z : Int),
       (evalNode f e tab).val = .int64 z → int32Min ≤ z → z ≤ int32Max →
       evalNode (f + 1) (.letStmt n .dInt32 e) tab =
         ⟨.int32 z, setSymbol n (.int32 z) (evalNode f e tab).tab,
          (evalNode f e tab).out⟩) ∧
    (evalNode 3 (.letStmt "x" .dInt32 (.number "3000000000" .dInt64)) [] =
       ⟨.error, [], []⟩ ∧
     processSource emptyProvider 2 srcC6 initPState = some initPState) ∧
    (∀ (d : DataType) (v : RV), d ≠ .dVoid → rvType v ≠ d →
       ((∃ v2, convertLet d v = .ok v2) ↔
         ((d = .dInt64 ∧ rvType v = .dInt32) ∨
          (d = .dFloat ∧ (rvType v = .dInt32 ∨ rvType v = .dInt64)) ∨
          (d = .dInt32 ∧ ∃ z, v = .int64 z ∧ int32Min ≤ z ∧ z ≤ int32Max)))) := by
  refine ⟨?_, ?_, ?_, ⟨rfl, rfl⟩, ?_⟩
  · intro z h1 h2
    simp [convertLet, rvType, h1, h2]
  · intro z h
    rcases h with h | h <;> simp [convertLet, rvType] <;> omega
  · intro f n e tab z hval h1 h2
    simp [evalNode, hval, convertLet, rvType, h1, h2]
  · intro d v hd hm
    cases d <;> cases v <;> simp_all [convertLet, rvType]
    split_ifs with h <;> simp_all

/-- Claim C6, witness at concrete inputs: 5 narrows, 3000000000 overflows, a
concrete `let x: int32 = 5` stores the narrowed value, and bool←int64 is
unconvertible. -/
theorem c6_witness :
    convertLet .dInt32 (.int64 5) = .ok (.int32 5) ∧
    convertLet .dInt32 (.int64 3000000000) = .error .overflow ∧
    evalNode 2 (.letStmt "x" .dInt32 (.number "5" .dInt64)) [] =
      ⟨.int32 5, setSymbol "x" (.int32 5) [], []⟩ ∧
    ((∃ v2, convertLet .dBool (.int64 1) = .ok v2) ↔
      ((DataType.dBool = .dInt64 ∧ rvType (.int64 1) = .dInt32) ∨
       (DataType.dBool = .dFloat ∧
         (rvType (RV.int64 1) = .dInt32 ∨ rvType (RV.int64 1) = .dInt64)) ∨
       (DataType.dBool = .dInt32 ∧
         ∃ z, RV.int64 1 = .int64 z ∧ int32Min ≤ z ∧ z ≤ int32Max))) :=
  ⟨c6_int32_narrowing_and_conversions.1 5 (by decide) (by decide),
   c6_int32_narrowing_and_conversions.2.1 3000000000 (Or.inr (by decide)),
   c6_int32_narrowing_and_conversions.2.2.1 1 "x" (.number "5" .dInt64) [] 5
     rfl (by decide) (by decide),
   c6_int32_narrowing_and_conversions.2.2.2.2 .dBool (.int64 1)
     (by decide) (by decide)⟩

/-- Concrete sources for the C7 string-equality examples. -/
def srcC7a : String := "print \"ab\" == \"ab\";"

def srcC7b : String := "print \"ab\" == \"ac\";"

/-- Claim C7.  Of the comparison operators, exactly `==` and `!=` accept two
String operands, comparing byte-wise ( `strcmp` equality ); `>`, `<`, `<=`,
`>=` on two strings are fatal type errors; and the two example programs
print `true` and `false` respectively. -/
theorem c7_string_equality :
    (∀ s t : String, applyBinOp "==" (.str s) (.str t) = .bool (decide (s = t))) ∧
    (∀ s t : String, applyBinOp "!=" (.str s) (.str t) = .bool (decide (s ≠ t))) ∧
    (∀ (s t : String) (op : String),
       op = ">" ∨ op = "<" ∨ op = "<=" ∨ op = ">=" →
       applyBinOp op (.str s) (.str t) = .error) ∧
    processSource emptyProvider 2 srcC7a initPState = some ⟨[], [], ["true"]⟩ ∧
    processSource emptyProvider 2 srcC7b initPState = some ⟨[], [], ["false"]⟩ := by
  refine ⟨fun s t => rfl, fun s t => rfl, ?_, rfl, rfl⟩
  intro s t op h
  rcases h with h | h | h | h <;> subst h <;> rfl

/-- Claim C7, witness for the operator-restriction conjunct at `>`. -/
theorem c7_witness :
    applyBinOp ">" (.str "ab") (.str "ab") = .error :=
  c7_string_equality.2.2.1 "ab" "ab" ">" (Or.inl rfl)

/-- Concrete source for the C8 duplicate-include example. -/
def srcC8 : String := "loadin \"a\";\nloadin \"a\";"

/-- Claim C8 (code bug).  The claim — a duplicate resolved module identifier
is a fatal duplicate-module error on the second `loadin`, the first having
registered it before its content is processed — is exactly what
`check_and_register_module` / `process_source_code` implement (last three
conjuncts).  But the lexer's keyword table has no `loadin` entry (although
`compiler.h` declares `TOKEN_LOADIN` as the token "for the 'loadin'
keyword"), so `loadin` lexes as a plain identifier, no `NODE_LOADIN` is ever
parsed, and a file containing `loadin "a"` twice produces no
duplicate-module error under any provider: evaluation merely hits an
undefined-variable Error on the identifier `loadin`, leaving the module
registry empty. -/
theorem c8_duplicate_module_unreachable :
    lexSource srcC8 =
      some [⟨.ident, "loadin"⟩, ⟨.strLit, "a"⟩, ⟨.semicolon, ";"⟩,
            ⟨.ident, "loadin"⟩, ⟨.strLit, "a"⟩, ⟨.semicolon, ";"⟩] ∧
    parseProgram
        [⟨.ident, "loadin"⟩, ⟨.strLit, "a"⟩, ⟨.semicolon, ";"⟩,
         ⟨.ident, "loadin"⟩, ⟨.strLit, "a"⟩, ⟨.semicolon, ";"⟩] =
      some (.block [.ident "loadin" .dInt64, .str "a",
                    .ident "loadin" .dInt64, .str "a"]) ∧
    (∀ prov : Provider,
       processSource prov 3 srcC8 initPState = some initPState) ∧
    (∀ (reg : List String) (p : String), p ∈ reg →
       checkAndRegister reg p = none) ∧
    (∀ (reg : List String) (p : String), p ∉ reg →
       reg.length < maxLoadedModules →
       checkAndRegister reg p = some (reg ++ [p])) ∧
    (∀ (prov : Provider) (efuel : Nat)
       (recur : String → PState → Option PState) (p canon msrc : String)
       (rest acc : List ASTNode) (st : PState) (reg2 : List String),
       prov.resolve p = some canon →
       checkAndRegister st.reg canon = some reg2 →
       prov.fetch canon = some msrc →
       processLoopAux prov efuel recur (.loadin p :: rest) st acc =
         (match recur msrc ⟨st.tab, reg2, st.out⟩ with
          | none => none
          | some st2 => processLoopAux prov efuel recur rest st2 acc)) := by
  refine ⟨rfl, rfl, fun prov => rfl, ?_, ?_, ?_⟩
  · intro reg p h
    simp [checkAndRegister, h]
  · intro reg p h1 h2
    simp [checkAndRegister, h1, Nat.not_le.mpr h2]
  · intro prov efuel recur p canon msrc rest acc st reg2 h1 h2 h3
    simp [processLoopAux, h1, h2, h3]

/-- Claim C8, witness for the hypothesis-bearing conjuncts: a registry hit,
a fresh registration, and the registration-before-content equation at a
concrete provider whose module `m` resolves to `M` with empty content. -/
theorem c8_witness :
    checkAndRegister ["M"] "M" = none ∧
    checkAndRegister [] "M" = some ["M"] ∧
    processLoopAux ⟨fun _ => some "M", fun _ => some ""⟩ 5
        (processSource ⟨fun _ => some "M", fun _ => some ""⟩ 1)
        [.loadin "m"] initPState [] =
      (match processSource ⟨fun _ => some "M", fun _ => some ""⟩ 1 ""
               ⟨[], ["M"], []⟩ with
       | none => none
       | some st2 =>
         processLoopAux ⟨fun _ => some "M", fun _ => some ""⟩ 5
           (processSource ⟨fun _ => some "M", fun _ => some ""⟩ 1) [] st2 []) :=
  ⟨c8_duplicate_module_unreachable.2.2.2.1 ["M"] "M" (by decide),
   c8_duplicate_module_unreachable.2.2.2.2.1 [] "M" (by decide) (by decide),
   c8_duplicate_module_unreachable.2.2.2.2.2
     ⟨fun _ => some "M", fun _ => some ""⟩ 5
     (processSource ⟨fun _ => some "M", fun _ => some ""⟩ 1)
     "m" "M" "" [] [] initPState ["M"] rfl rfl rfl⟩

/-- Concrete source and provider for the C9 include-ordering example:
module `m` resolves to canonical `M` whose content is `print 2;`. -/
def srcC9 : String := "loadin \"m\";\nprint 1;"

def provC9 : Provider :=
  ⟨fun p => if p = "m" then some "M" else none,
   fun c => if c = "M" then some "print 2;" else none⟩

/-- Claim C9 (code bug).  The claim — includes resolve and run to completion
before any of the file's own statements, the latter being relocated into a
synthetic block evaluated afterwards — is what the statement walk of
`process_source_code` implements: fed an AST that does contain
`NODE_LOADIN` (third conjunct), the module's `print 2` output precedes the
file's own `print 1` and the module is registered.  But since the lexer
never produces `TOKEN_LOADIN` (no keyword-table entry), the real pipeline
on `loadin "m"; print 1;` resolves no module at all: `loadin` is evaluated
as an undefined variable, whose Error aborts the relocated block before
`print 1`, so the run prints nothing and registers nothing — not the
claimed module-first execution. -/
theorem c9_include_ordering_unreachable :
    processSource provC9 3 srcC9 initPState = some initPState ∧
    (([] : List String) ≠ ["2", "1"]) ∧
    processLoopAux provC9 9 (processSource provC9 2)
        [.loadin "m", .printStmt (some (.number "1" .dInt64))] initPState [] =
      some ⟨[], ["M"], ["2", "1"]⟩ := by
  refine ⟨rfl, by decide, rfl⟩

/-- The update branch of `set_symbol` does not change the table's size. -/
theorem replaceSym_length (n : String) (v : RV) :
    ∀ tab : SymTab, (replaceSym n v tab).length = tab.length := by
  intro tab
  induction tab with
  | nil => rfl
  | cons hd tl ih =>
    obtain ⟨m, w⟩ := hd
    by_cases hm : m = n <;> simp [replaceSym, hm, ih]

/-- `set_symbol` preserves the `MAX_SYMBOLS` bound. -/
theorem setSymbol_length_le (n : String) (v : RV) (tab : SymTab)
    (h : tab.length ≤ maxSymbols) :
    (setSymbol n v tab).length ≤ maxSymbols := by
  rw [setSymbol]
  split_ifs with h1 h2
  · rw [replaceSym_length]; exact h
  · simpa using h2
  · exact h

/-- On a full table, `set_symbol` of a name not yet bound reports the
overflow on stderr and leaves the table unchanged. -/
theorem setSymbol_full_fresh (n : String) (v : RV) (tab : SymTab)
    (hlen : maxSymbols ≤ tab.length) (hlk : lookupSym n tab = none) :
    setSymbol n v tab = tab := by
  simp [setSymbol, hlk, Nat.not_lt.mpr hlen]

/-- The statement loops preserve the `MAX_SYMBOLS` bound whenever the
statement evaluator does. -/
theorem runStmtsFrom_tab_le (ev : ASTNode → SymTab → EvalRes)
    (hev : ∀ (s : ASTNode) (tab : SymTab), tab.length ≤ maxSymbols →
      ((ev s tab).tab).length ≤ maxSymbols) :
    ∀ (ss : List ASTNode) (tab : SymTab) (last : RV) (acc : List String),
      tab.length ≤ maxSymbols →
      ((runStmtsFrom ev ss tab last acc).tab).length ≤ maxSymbols := by
  intro ss
  induction ss with
  | nil => intro tab last acc h; simpa [runStmtsFrom] using h
  | cons s rest ih =>
    intro tab last acc h
    have hs := hev s tab h
    cases hv : (ev s tab).val <;> simp [runStmtsFrom, hv] <;>
      first
        | exact hs
        | exact ih _ _ _ hs

/-- Branch evaluation of `evaluate_if` preserves the `MAX_SYMBOLS` bound
whenever the node evaluator does. -/
theorem evalIfBranch_tab_le (ev : ASTNode → SymTab → EvalRes)
    (hev : ∀ (s : ASTNode) (tab : SymTab), tab.length ≤ maxSymbols →
      ((ev s tab).tab).length ≤ maxSymbols) :
    ∀ (ob : Option ASTNode) (tab : SymTab) (acc : List String),
      tab.length ≤ maxSymbols →
      ((evalIfBranch ev ob tab acc).tab).length ≤ maxSymbols := by
  intro ob tab acc h
  cases ob with
  | none => simpa [evalIfBranch] using h
  | some node =>
    cases node <;> simp [evalIfBranch] <;>
      first
        | exact hev _ _ h
        | exact runStmtsFrom_tab_le ev hev _ _ _ _ h

/-- Every evaluation step preserves the `MAX_SYMBOLS` bound on the symbol
table (all writes go through `set_symbol`). -/
theorem evalNode_tab_le :
    ∀ (f : Nat) (node : ASTNode) (tab : SymTab), tab.length ≤ maxSymbols →
      ((evalNode f node tab).tab).length ≤ maxSymbols := by
  intro f
  induction f with
  | zero => intro node tab h; simpa [evalNode] using h
  | succ f ih =>
    intro node tab h
    cases node with
    | number t dt => simpa [evalNode] using h
    | str s => simpa [evalNode] using h
    | boolLit b => simpa [evalNode] using h
    | ident n dt =>
      cases hl : lookupSym n tab <;> simpa [evalNode, hl] using h
    | binary op l r =>
      have hL := ih l tab h
      have hR := ih r (evalNode f l tab).tab hL
      cases hv1 : (evalNode f l tab).val <;>
        cases hv2 : (evalNode f r (evalNode f l tab).tab).val <;>
        simp [evalNode, hv1, hv2] <;> exact hR
    | letStmt n dt init =>
      have hE := ih init tab h
      cases hv : (evalNode f init tab).val <;> simp [evalNode, hv]
      case error => exact hE
      all_goals
        cases hc : convertLet dt (evalNode f init tab).val <;>
          rw [hv] at hc <;> simp [hc]
      all_goals
        first
          | exact hE
          | exact setSymbol_length_le _ _ _ hE
    | ifStmt c b e =>
      cases c with
      | none => simpa [evalNode, evalOpt] using h
      | some cn =>
        have hC := ih cn tab h
        have hbr := evalIfBranch_tab_le (evalNode f) (fun s t ht => ih s t ht)
        cases hv : (evalNode f cn tab).val
        case bool bv =>
          cases bv <;> simp [evalNode, evalOpt, hv] <;> exact hbr _ _ _ hC
        all_goals simpa [evalNode, evalOpt, hv] using hC
    | printStmt arg =>
      cases arg with
      | none => simpa [evalNode] using h
      | some e =>
        have hE := ih e tab h
        cases hv : (evalNode f e tab).val <;> simp [evalNode, hv] <;> exact hE
    | block ss =>
      have := runStmtsFrom_tab_le (evalNode f) (fun s t ht => ih s t ht) ss tab .void [] h
      simpa [evalNode] using this
    | loadin p => simpa [evalNode] using h

/-- Claim C10.  The symbol table never exceeds `MAX_SYMBOLS` (100) entries:
every evaluation step and every `set_symbol` call preserves the bound; a
`let` that would create a 101st distinct binding leaves the table unchanged
and is not fatal — the `let` still yields its initializer's value with the
table and output of the initializer's evaluation — and a later read of the
never-stored name is the undefined-variable error. -/
theorem c10_symbol_table_bound :
    (∀ (f : Nat) (node : ASTNode) (tab : SymTab),
       tab.length ≤ maxSymbols →
       ((evalNode f node tab).tab).length ≤ maxSymbols) ∧
    (∀ (n : String) (v : RV) (tab : SymTab), tab.length ≤ maxSymbols →
       (setSymbol n v tab).length ≤ maxSymbols) ∧
    (∀ (n : String) (v : RV) (tab : SymTab), maxSymbols ≤ tab.length →
       lookupSym n tab = none → setSymbol n v tab = tab) ∧
    (∀ (f : Nat) (n : String) (e : ASTNode) (tab : SymTab),
       (evalNode f e tab).val ≠ .error →
       maxSymbols ≤ ((evalNode f e tab).tab).length →
       lookupSym n ((evalNode f e tab).tab) = none →
       evalNode (f + 1) (.letStmt n .dVoid e) tab = evalNode f e tab) ∧
    (∀ (f : Nat) (n : String) (dt : DataType) (tab : SymTab),
       lookupSym n tab = none →
       evalNode (f + 1) (.ident n dt) tab = ⟨.error, tab, []⟩) := by
  refine ⟨evalNode_tab_le, fun n v tab h => setSymbol_length_le n v tab h,
    fun n v tab h1 h2 => setSymbol_full_fresh n v tab h1 h2, ?_, ?_⟩
  · intro f n e tab hne hlen hlk
    cases hv : (evalNode f e tab).val
    case error => exact absurd hv hne
    all_goals
      simp [evalNode, hv, convertLet,
        setSymbol_full_fresh n _ ((evalNode f e tab).tab) hlen hlk]
    all_goals rw [← hv]
  · intro f n dt tab hlk
    simp [evalNode, hlk]

/-- A concrete full symbol table with 100 distinct names. -/
def fullTab : SymTab :=
  (List.range maxSymbols).map (fun i => (toString i, RV.int64 0))

/-- Claim C10, witness: at the concrete full table, evaluating
`let x = 7` leaves the table unchanged and yields 7, and reading `x`
afterwards is the undefined-variable error. -/
theorem c10_witness :
    ((evalNode 1 (.block [.printStmt none]) fullTab).tab).length ≤ maxSymbols ∧
    (setSymbol "x" (.int64 7) fullTab).length ≤ maxSymbols ∧
    setSymbol "x" (.int64 7) fullTab = fullTab ∧
    evalNode 2 (.letStmt "x" .dVoid (.number "7" .dInt64)) fullTab =
      evalNode 1 (.number "7" .dInt64) fullTab ∧
    evalNode 2 (.ident "x" .dInt64) fullTab = ⟨.error, fullTab, []⟩ :=
  ⟨c10_symbol_table_bound.1 1 (.block [.printStmt none]) fullTab (by decide),
   c10_symbol_table_bound.2.1 "x" (.int64 7) fullTab (by decide),
   c10_symbol_table_bound.2.2.1 "x" (.int64 7) fullTab (by decide) (by decide),
   c10_symbol_table_bound.2.2.2.1 1 "x" (.number "7" .dInt64) fullTab
     (by decide) (by decide) (by decide),
   c10_symbol_table_bound.2.2.2.2 1 "x" .dInt64 fullTab (by decide)⟩
